import Mathlib

/-!
Verification of the dependency-spec extractor of `fast-tort-cli`.

The Python code under scrutiny lives in `fast_tort_cli/cli.py`
(class `UpgradeDependencies` and the exception `ParseError`) and in
`fast_tortoise_cli/cli.py` (an older variant of the same class).
Strings are modelled as `List Char`; the Python string primitives used by
the code (`strip`, `split`, `splitlines`, `replace`, `lower`, `startswith`,
substring membership `in`) are given executable Lean counterparts with the
same semantics on the ASCII texts the tool manipulates.
-/

namespace FastTort

/-- A Python string, modelled as its list of characters. -/
abbrev Str := List Char

/-- Python `s.lstrip(cs)`: drop leading characters that occur in `cs`. -/
def pyLStrip (cs : Str) (s : Str) : Str :=
  s.dropWhile (fun c => cs.contains c)

/-- Python `s.rstrip(cs)`: drop trailing characters that occur in `cs`. -/
def pyRStrip (cs : Str) (s : Str) : Str :=
  (s.reverse.dropWhile (fun c => cs.contains c)).reverse

/-- Python `s.strip(cs)` with an explicit character set. -/
def pyStrip (cs : Str) (s : Str) : Str :=
  pyRStrip cs (pyLStrip cs s)

/-- The whitespace characters stripped by Python `str.strip()` on ASCII text. -/
def wsChars : Str := [' ', '\t', '\n', '\r', Char.ofNat 11, Char.ofNat 12]

/-- Python `s.strip()` (no argument): strip whitespace from both ends. -/
def pyStripWs (s : Str) : Str := pyStrip wsChars s

/-- Python `s.lower()` on ASCII text. -/
def pyLower (s : Str) : Str := s.map Char.toLower

/-- Python `s.startswith(p)`. -/
def pyStartsWith (p : Str) (s : Str) : Bool := p.isPrefixOf s

/-- Split at the first occurrence of `sep`: `some (before, after)` when `sep`
occurs in `s`, `none` otherwise.  This is Python `s.split(sep, 1)` when it
yields two parts. -/
def pySplitOnce (sep : Str) (s : Str) : Option (Str × Str) :=
  if sep.isPrefixOf s then some ([], s.drop sep.length)
  else
    match s with
    | [] => none
    | c :: rest => (pySplitOnce sep rest).map (fun p => (c :: p.1, p.2))

/-- Fuel-driven worker for `pySplit`; the fuel bounds the number of cuts. -/
def pySplitFuel : Nat → Str → Str → List Str
  | 0, _, s => [s]
  | fuel + 1, sep, s =>
    match pySplitOnce sep s with
    | none => [s]
    | some (a, b) => a :: pySplitFuel fuel sep b

/-- Python `s.split(sep)` for a non-empty separator: cut at every
non-overlapping occurrence of `sep`, leftmost first. -/
def pySplit (sep : Str) (s : Str) : List Str :=
  pySplitFuel (s.length + 1) sep s

/-- Python substring membership `sep in s` (for non-empty `sep`). -/
def occursIn (sep : Str) (s : Str) : Bool := (pySplitOnce sep s).isSome

/-- Python `s.replace(old, new)` for a non-empty `old`. -/
def pyReplace (old new s : Str) : Str :=
  List.intercalate new (pySplit old s)

/-- Python `s.splitlines()` on texts whose line ends are `\n`. -/
def pySplitlines : Str → List Str
  | [] => []
  | c :: rest =>
    match pySplitlines rest with
    | [] => if c = '\n' then [[]] else [[c]]
    | l :: ls => if c = '\n' then [] :: l :: ls else (c :: l) :: ls

/-- First element of a split result (Python `[0]`; a split is never empty). -/
def headPart (xs : List Str) : Str := xs.headD []

/-- Last element of a split result (Python `[-1]`; a split is never empty). -/
def lastPart (xs : List Str) : Str := xs.getLastD []

/-- Whether a Python string is non-empty and begins with an ASCII digit
(the guarded use of `v[0].isdigit()`). -/
def headIsDigit : Str → Bool
  | [] => false
  | c :: _ => c.isDigit

/-- The exception kinds that can escape `UpgradeDependencies.build_args` in
`fast_tort_cli/cli.py`: the dedicated `ParseError` (raised with the message
`f"\x7bm = \x7d"`, carrying the offending stripped line `m`), and Python's
built-in `IndexError` (raised by `v[0]` in `no_need_upgrade` when `v` is
empty). -/
inductive PyErr where
  | parseError (m : Str)
  | indexError
  deriving DecidableEq

deriving instance DecidableEq for Except

/-- The running state of the `build_args` loop: the plain-token list `args`
and the insertion-ordered dict `specials` mapping a flag key to its tokens. -/
abbrev St := List Str × List (Str × List Str)

/-- Python `specials[key] = specials.get(key, []) + [item]` on an
insertion-ordered dict: update in place when the key exists, else append. -/
def addSpecial : List (Str × List Str) → Str → Str → List (Str × List Str)
  | [], k, item => [(k, [item])]
  | kv :: rest, k, item =>
    if kv.1 = k then (k, kv.2 ++ [item]) :: rest
    else kv :: addSpecial rest k item

/-- `UpgradeDependencies.parse_value` of `fast_tort_cli/cli.py` (lines
266-287): pick out the value for `key` in an inline-table version spec. -/
def parse_value (version_info key : Str) : Str :=
  let sep := key ++ " = ".data
  let rest :=
    match pySplitOnce sep version_info with
    | some p => p.2
    | none => version_info
  let rest := pyStrip " =".data rest
  let rest :=
    if pyStartsWith "[".data rest then headPart (pySplit "]".data (rest.drop 1))
    else if pyStartsWith "\"".data rest then headPart (pySplit "\"".data (rest.drop 1))
    else headPart (pySplit "\x7d".data (headPart (pySplit ",".data rest)))
  pyReplace "\"".data [] (pyStripWs rest)

/-- The `v = v.split("version=")[1].strip('"').split('"')[0]` step of
`no_need_upgrade`, reached when `"version="` occurs in `v`. -/
def verExtract (v : Str) : Str :=
  let x := (pySplit "version=".data v).getD 1 []
  let x := pyStrip "\"".data x
  headPart (pySplit "\"".data x)

/-- The version spec as `no_need_upgrade` sees it just before its wildcard
and relational checks: spaces removed, and the inner `version=` field
extracted when present. -/
def constraintView (version_info : Str) : Str :=
  let v := pyReplace " ".data [] version_info
  if occursIn "version=".data v then verExtract v else v

/-- `UpgradeDependencies.no_need_upgrade` of `fast_tort_cli/cli.py` (lines
289-302).  The `line` argument is only echoed in the source, never used for
the result; the `IndexError` arm models the unguarded `v[0]` on an empty
`v`. -/
def no_need_upgrade (version_info _line : Str) : Except PyErr Bool :=
  let v := pyReplace " ".data [] version_info
  if pyStartsWith "\x7burl=".data v then .ok true
  else
    let v := if occursIn "version=".data v then verExtract v else v
    if v = "*".data then .ok true
    else if pyStartsWith ">".data v || pyStartsWith "<".data v then .ok true
    else
      match v with
      | [] => .error .indexError
      | c :: _ => .ok c.isDigit

/-- One iteration of the `for line in package_lines` loop of
`UpgradeDependencies.build_args` in `fast_tort_cli/cli.py` (lines 310-336),
acting on the `(args, specials)` state. -/
def process_line (st : St) (line : Str) : Except PyErr St :=
  let m := pyStripWs line
  if m.isEmpty || pyStartsWith "#".data m then .ok st
  else
    match pySplitOnce "=".data m with
    | none => .error (.parseError m)
    | some (package0, version_info0) =>
      let package := pyStripWs package0
      if pyLower package = "python".data then .ok st
      else
        let version_info := pyStrip " \"".data version_info0
        match no_need_upgrade version_info line with
        | .error e => .error e
        | .ok true => .ok st
        | .ok false =>
          let package :=
            if occursIn "extras".data version_info then
              package ++ "[".data ++ parse_value version_info "extras".data ++ "]".data
            else package
          let item := "\"".data ++ package ++ "@latest\"".data
          let key : Option Str := none
          let key :=
            if occursIn "platform".data version_info then
              some ("--platform=".data ++ parse_value version_info "platform".data)
            else key
          let key :=
            if occursIn "source".data version_info then
              some ((match key with | none => ([] : Str) | some k => k ++ " ".data) ++
                "--source=".data ++ parse_value version_info "source".data)
            else key
          let key :=
            if occursIn "optional = true".data version_info then
              some ((match key with | none => ([] : Str) | some k => k ++ " ".data) ++
                "--optional".data)
            else key
          match key with
          | some k => .ok (st.1, addSpecial st.2 k item)
          | none => .ok (st.1 ++ [item], st.2)

/-- The loop of `build_args` threaded from an arbitrary starting state. -/
def build_args_from (st : St) : List Str → Except PyErr St
  | [] => .ok st
  | l :: ls =>
    match process_line st l with
    | .error e => .error e
    | .ok st' => build_args_from st' ls

/-- `UpgradeDependencies.build_args` of `fast_tort_cli/cli.py` (lines
304-337): returns `(args, specials)` or the first exception raised. -/
def build_args (package_lines : List Str) : Except PyErr St :=
  build_args_from ([], []) package_lines

/-- Worker for `parse_item`: the `for line in toml_str.splitlines()` loop
with its accumulated `lines`; a header line breaks only once `lines` is
non-empty. -/
def parse_item_go (acc : List Str) : List Str → List Str
  | [] => acc
  | l :: rest =>
    let t := pyStripWs l
    if pyStartsWith "[".data t then
      if acc.isEmpty then parse_item_go acc rest else acc
    else if t.isEmpty then parse_item_go acc rest
    else parse_item_go (acc ++ [t]) rest

/-- `UpgradeDependencies.parse_item` of `fast_tort_cli/cli.py` (lines
344-353). -/
def parse_item (toml_str : Str) : List Str :=
  parse_item_go [] (pySplitlines toml_str)

/-- The header of the production-dependencies section. -/
def mainTitle : Str := "[tool.poetry.dependencies]".data

/-- `UpgradeDependencies.DevFlag.new`: the new-style dev-group header. -/
def newDevTitle : Str := "[tool.poetry.group.dev.dependencies]".data

/-- `UpgradeDependencies.DevFlag.old`: the legacy dev-group header. -/
def oldDevTitle : Str := "[tool.poetry.dev-dependencies]".data

/-- The tail of `UpgradeDependencies.get_args` (lines 367-380) once the dev
header and dev flag have been chosen and the post-main text isolated. -/
def get_args_with (dev_title dev_flag text : Str) :
    Except PyErr (List Str × List Str × List (List Str) × Str) :=
  let split2 :=
    match pySplit dev_title text with
    | [a, b] => (a, b)
    | _ => (text, [])
  match build_args (parse_item split2.1) with
  | .error e => .error e
  | .ok (prod_packs, specials) =>
    let others := specials.map (fun kv => kv.1 :: kv.2)
    match build_args (parse_item split2.2) with
    | .error e => .error e
    | .ok (dev_packs, specials2) =>
      let others := others ++ specials2.map (fun kv => kv.1 :: (kv.2 ++ [dev_flag]))
      .ok (prod_packs, dev_packs, others, dev_flag)

/-- `UpgradeDependencies.get_args` of `fast_tort_cli/cli.py` (lines
355-380), on an explicit manifest text: isolate the text after the main
header, choose the dev header and flag (new style first, legacy as
fallback), split off the dev body, and build both upgrade plans. -/
def get_args (toml_text : Str) :
    Except PyErr (List Str × List Str × List (List Str) × Str) :=
  let text := lastPart (pySplit mainTitle toml_text)
  if occursIn newDevTitle text then
    get_args_with newDevTitle "--group dev".data text
  else
    get_args_with oldDevTitle "--dev".data text

end FastTort

namespace FastTortoise

open FastTort

/-- The exception kind that can escape `UpgradeDependencies.build_args` in
`fast_tortoise_cli/cli.py`: the re-raised `ValueError` from unpacking
`m.split("=", 1)` when a line has no `=`. -/
inductive PyErrZ where
  | valueError
  deriving DecidableEq

/-- `UpgradeDependencies.parse_value` of `fast_tortoise_cli/cli.py` (lines
123-127). -/
def parse_value (version_info key : Str) : Str :=
  let sep := key ++ " = ".data
  let rest :=
    match pySplitOnce sep version_info with
    | some p => p.2
    | none => version_info
  let rest := pyStrip " =".data rest
  let rest :=
    match pySplitOnce ",".data rest with
    | some p => p.1
    | none => rest
  let rest := headPart (pySplit "\x7d".data rest)
  pyStrip "[]\"".data (pyStripWs rest)

/-- One iteration of the `for line in package_lines` loop of
`UpgradeDependencies.build_args` in `fast_tortoise_cli/cli.py` (lines
135-164).  Differences from the `fast_tort_cli` revision: the version spec
is stripped of whitespace only (quotes kept), the url check compares
against the literal `"\x7burl = \x7d"`, there is no `version=` extraction and
no `>`/`<`/digit skip, `platform` takes precedence over `source` (an
`elif`), and `optional` is not handled. -/
def process_line (st : St) (line : Str) : Except PyErrZ St :=
  let m := pyStripWs line
  if m.isEmpty || pyStartsWith "#".data m then .ok st
  else
    match pySplitOnce "=".data m with
    | none => .error .valueError
    | some (package0, version_info0) =>
      let package := pyStripWs package0
      if pyLower package = "python".data then .ok st
      else
        let version_info := pyStripWs version_info0
        if pyStartsWith "\x7burl = \x7d".data version_info then .ok st
        else if version_info = "*".data then .ok st
        else
          let package :=
            if occursIn "extras".data version_info then
              package ++ "[".data ++ parse_value version_info "extras".data ++ "]".data
            else package
          let item := "\"".data ++ package ++ "@latest\"".data
          let key : Option Str :=
            if occursIn "platform".data version_info then
              some ("--platform=".data ++ parse_value version_info "platform".data)
            else if occursIn "source".data version_info then
              some ("--source=".data ++ parse_value version_info "source".data)
            else none
          match key with
          | some k => .ok (st.1, addSpecial st.2 k item)
          | none => .ok (st.1 ++ [item], st.2)

/-- The loop of the `fast_tortoise_cli` `build_args` threaded from an
arbitrary starting state. -/
def build_args_from (st : St) : List Str → Except PyErrZ St
  | [] => .ok st
  | l :: ls =>
    match process_line st l with
    | .error e => .error e
    | .ok st' => build_args_from st' ls

/-- `UpgradeDependencies.build_args` of `fast_tortoise_cli/cli.py` (lines
129-165). -/
def build_args (package_lines : List Str) : Except PyErrZ St :=
  build_args_from ([], []) package_lines

end FastTortoise

namespace FastTort

/-- Modelled from the spec sentence of claim C4: the non-blank lines of a
section body from its start up to (excluding) the first subsequent
section-header line (a line whose stripped text begins with `[`), or up to
the end of the text if no such header follows.  Lines are returned in the
stripped form `parse_item` uses, to compare like with like. -/
def specSectionLines (body : Str) : List Str :=
  (((pySplitlines body).takeWhile
      (fun l => !pyStartsWith "[".data (pyStripWs l))).map pyStripWs).filter
    (fun l => !l.isEmpty)

/-- The stripped, non-blank members of a list of lines, in order. -/
def tokenLines (ls : List Str) : List Str :=
  (ls.map pyStripWs).filter (fun l => !l.isEmpty)

/-- The stripped, non-blank lines of a section body, in order. -/
def strippedLines (body : Str) : List Str :=
  tokenLines (pySplitlines body)

/-- The amended reading of claim C4 (what `parse_item` actually computes):
among the stripped non-blank lines, skip any leading header lines, then
take entry lines up to (excluding) the next header line. -/
def specAmendedLines (body : Str) : List Str :=
  ((strippedLines body).dropWhile (fun l => pyStartsWith "[".data l)).takeWhile
    (fun l => !pyStartsWith "[".data l)

/-- Lines on which the two `build_args` revisions act identically: a plain
upgrade line with no url/wildcard/constraint skip in either revision and
none of the `extras`/`platform`/`source`/`optional` markers. -/
def plain_both (v : Str) : Bool :=
  let vt := pyStrip " \"".data v
  let vz := pyStripWs v
  (match no_need_upgrade vt [] with | Except.ok false => true | _ => false) &&
  !occursIn "extras".data vt && !occursIn "platform".data vt &&
  !occursIn "source".data vt && !occursIn "optional = true".data vt &&
  !pyStartsWith "\x7burl = \x7d".data vz && decide (vz ≠ "*".data) &&
  !occursIn "extras".data vz && !occursIn "platform".data vz &&
  !occursIn "source".data vz

/-- Lines on which the `fast_tort_cli` and `fast_tortoise_cli` revisions of
`build_args` agree step by step: blank lines, comment lines, `python`
marker lines, and plain upgrade lines in the sense of `plain_both`. -/
def agree_line (l : Str) : Bool :=
  let m := pyStripWs l
  if m.isEmpty || pyStartsWith "#".data m then true
  else
    match pySplitOnce "=".data m with
    | none => false
    | some (p, v) =>
      pyLower (pyStripWs p) == "python".data || plain_both v

end FastTort

namespace FastTort

theorem mem_of_mem_pyLStrip {c : Char} {cs s : Str} (h : c ∈ pyLStrip cs s) :
    c ∈ s :=
  (List.dropWhile_sublist _).mem h

theorem mem_of_mem_pyRStrip {c : Char} {cs s : Str} (h : c ∈ pyRStrip cs s) :
    c ∈ s := by
  unfold pyRStrip at h
  rw [List.mem_reverse] at h
  have := (List.dropWhile_sublist (fun c => cs.contains c)).mem h
  rwa [List.mem_reverse] at this

theorem mem_of_mem_pyStrip {c : Char} {cs s : Str} (h : c ∈ pyStrip cs s) :
    c ∈ s :=
  mem_of_mem_pyLStrip (mem_of_mem_pyRStrip h)

theorem pySplitOnce_singleton_none {c : Char} {s : Str} (h : c ∉ s) :
    pySplitOnce [c] s = none := by
  induction s with
  | nil => rfl
  | cons a rest ih =>
    have hca : c ≠ a := fun hc => h (hc ▸ List.mem_cons_self a rest)
    have hrest : c ∉ rest := fun hc => h (List.mem_cons_of_mem a hc)
    unfold pySplitOnce
    have hpre : [c].isPrefixOf (a :: rest) = false := by
      simp [List.isPrefixOf, hca]
    rw [hpre]
    simp [ih hrest]

theorem pySplit_of_none {sep s : Str} (h : pySplitOnce sep s = none) :
    pySplit sep s = [s] := by
  unfold pySplit pySplitFuel
  rw [h]

theorem pyStripWs_ne_nil_of_split {line : Str} {r : Str × Str}
    (hs : pySplitOnce "=".data (pyStripWs line) = some r) :
    pyStripWs line ≠ [] := by
  intro h
  rw [h] at hs
  simp [pySplitOnce, List.isPrefixOf] at hs

theorem no_need_upgrade_empty (l : Str) :
    no_need_upgrade [] l = .error .indexError := rfl

end FastTort

namespace FastTort

/-- C2: on exactly the four given dependency lines, `build_args` groups
`gunicorn` under `--platform=linux`, `orjson` under `--source=jumping` and
`uvicorn` under `--platform=linux --optional`, three distinct groups, with
`bumpversion` (a wildcard line) in no group and no plain token emitted. -/
theorem build_args_four_line_groups :
    build_args
      ["bumpversion = \"*\"".data,
       "gunicorn = \x7bversion = \"^21.2.0\", platform = \"linux\"\x7d".data,
       "orjson = \x7bversion = \"^3.9.7\", source = \"jumping\"\x7d".data,
       "uvicorn = \x7bversion = \"^0.23.2\", platform = \"linux\", optional = true\x7d".data] =
      .ok ([],
        [("--platform=linux".data, ["\"gunicorn@latest\"".data]),
         ("--source=jumping".data, ["\"orjson@latest\"".data]),
         ("--platform=linux --optional".data, ["\"uvicorn@latest\"".data])]) ∧
    "--platform=linux".data ≠ "--source=jumping".data ∧
    "--platform=linux".data ≠ "--platform=linux --optional".data ∧
    "--source=jumping".data ≠ "--platform=linux --optional".data := by
  decide

/-- C7: `parse_value` on the inline table
`\x7bextras = ["asyncpg","aiomysql"], version = "*"\x7d` with key `extras`
returns the comma-joined, quote-stripped array contents. -/
theorem parse_value_extras_array :
    parse_value "\x7bextras = [\"asyncpg\",\"aiomysql\"], version = \"*\"\x7d".data
      "extras".data = "asyncpg,aiomysql".data := by
  decide

/-- C4 counterexample: on the body `[tool.isort]\nprofile = "black"`, whose
first line is already a section header, `parse_item` skips the header and
returns the following line, while the claim as stated demands the lines
before the first header, i.e. none. -/
theorem parse_item_header_skip_counterexample :
    parse_item "[tool.isort]\nprofile = \"black\"".data ≠
      specSectionLines "[tool.isort]\nprofile = \"black\"".data ∧
    parse_item "[tool.isort]\nprofile = \"black\"".data =
      ["profile = \"black\"".data] ∧
    specSectionLines "[tool.isort]\nprofile = \"black\"".data = [] := by
  decide

/-- C1: a non-blank, non-comment dependency line with no `=` makes the
`build_args` loop raise `ParseError` carrying the stripped line, a kind
distinct from the `IndexError` that can leak from `no_need_upgrade`; on a
list containing such a line `build_args` never returns normally. -/
theorem no_eq_line_raises_parse_error (line : Str)
    (h1 : pyStripWs line ≠ [])
    (h2 : pyStartsWith "#".data (pyStripWs line) = false)
    (h3 : '=' ∉ line) :
    (∀ st, process_line st line = .error (.parseError (pyStripWs line))) ∧
    (∀ m, PyErr.parseError m ≠ PyErr.indexError) ∧
    (∀ pre post st r, build_args_from st (pre ++ line :: post) ≠ .ok r) := by
  have hmem : '=' ∉ pyStripWs line := fun hc => h3 (mem_of_mem_pyStrip hc)
  have hnone : pySplitOnce "=".data (pyStripWs line) = none :=
    pySplitOnce_singleton_none hmem
  have hempty : (pyStripWs line).isEmpty = false := by
    simp [List.isEmpty_iff, h1]
  have hstep : ∀ st, process_line st line = .error (.parseError (pyStripWs line)) := by
    intro st
    simp [process_line, hempty, h2, hnone]
  refine ⟨hstep, fun m h => PyErr.noConfusion h, ?_⟩
  intro pre
  induction pre with
  | nil =>
    intro post st r h
    rw [List.nil_append] at h
    simp only [build_args_from, hstep st] at h
    exact Except.noConfusion h
  | cons p ps ih =>
    intro post st r h
    rw [List.cons_append] at h
    simp only [build_args_from] at h
    cases hp : process_line st p with
    | error e => rw [hp] at h; simp at h
    | ok st' => rw [hp] at h; exact ih post st' r h

/-- C6: a dependency line whose name part, trimmed and lower-cased, equals
`python` is skipped by the `build_args` loop, whatever its version spec. -/
theorem python_line_skipped (st : St) (line p v : Str)
    (h1 : pyStripWs line ≠ [])
    (h2 : pyStartsWith "#".data (pyStripWs line) = false)
    (hs : pySplitOnce "=".data (pyStripWs line) = some (p, v))
    (hp : pyLower (pyStripWs p) = "python".data) :
    process_line st line = .ok st := by
  have hempty : (pyStripWs line).isEmpty = false := by
    simp [List.isEmpty_iff, h1]
  simp [process_line, hempty, h2, hs, hp]

/-- C10: a non-comment dependency line whose name is not `python` and whose
text after the first `=` strips (of spaces and double quotes) to the empty
string makes the `build_args` loop raise `IndexError` — the unguarded
`v[0]` of `no_need_upgrade` — rather than classify the entry or raise
`ParseError`. -/
theorem empty_spec_raises_index_error (line p v : Str)
    (h2 : pyStartsWith "#".data (pyStripWs line) = false)
    (hs : pySplitOnce "=".data (pyStripWs line) = some (p, v))
    (hp : pyLower (pyStripWs p) ≠ "python".data)
    (hv : pyStrip " \"".data v = []) :
    (∀ st, process_line st line = .error .indexError) ∧
    build_args [line] = .error .indexError := by
  have h1 : pyStripWs line ≠ [] := pyStripWs_ne_nil_of_split hs
  have hempty : (pyStripWs line).isEmpty = false := by
    simp [List.isEmpty_iff, h1]
  have hstep : ∀ st, process_line st line = .error .indexError := by
    intro st
    simp [process_line, hempty, h2, hs, hp, hv, no_need_upgrade_empty]
  exact ⟨hstep, by simp only [build_args, build_args_from, hstep]⟩

/-- C3: whenever the version spec, with spaces removed and an inner
`version=` field extracted when present, starts with `>` or `<` or begins
with a digit, `no_need_upgrade` reports the entry as not needing an
upgrade, so the `build_args` loop emits no token for it. -/
theorem constraint_spec_skipped (version_info line : Str)
    (h : pyStartsWith ">".data (constraintView version_info) = true ∨
         pyStartsWith "<".data (constraintView version_info) = true ∨
         headIsDigit (constraintView version_info) = true) :
    no_need_upgrade version_info line = .ok true := by
  unfold no_need_upgrade
  by_cases hurl : pyStartsWith "\x7burl=".data
      (pyReplace " ".data [] version_info) = true
  · simp [hurl]
  · rw [if_neg (by simpa using hurl)]
    have hcv : (if occursIn "version=".data (pyReplace " ".data [] version_info) then
        verExtract (pyReplace " ".data [] version_info)
      else pyReplace " ".data [] version_info) = constraintView version_info := rfl
    rw [hcv]
    by_cases hstar : constraintView version_info = "*".data
    · simp [hstar]
    · rw [if_neg hstar]
      rcases h with h | h | h
      · simp [h]
      · simp [h]
      · cases hv : constraintView version_info with
        | nil => rw [hv] at h; simp [headIsDigit] at h
        | cons c rest =>
          rw [hv] at h
          simp only [headIsDigit] at h
          split
          · rfl
          · simp [h]

theorem addSpecial_values_ne_nil {sp : List (Str × List Str)} {k item : Str}
    (h : ∀ kv ∈ sp, kv.2 ≠ []) :
    ∀ kv ∈ addSpecial sp k item, kv.2 ≠ [] := by
  induction sp with
  | nil =>
    intro kv hkv
    simp only [addSpecial, List.mem_singleton] at hkv
    subst hkv
    simp
  | cons hd tl ih =>
    intro kv hkv
    unfold addSpecial at hkv
    split at hkv
    · rcases List.mem_cons.mp hkv with rfl | hkv'
      · simp
      · exact h kv (List.mem_cons_of_mem hd hkv')
    · rcases List.mem_cons.mp hkv with rfl | hkv'
      · exact h _ (List.mem_cons_self _ _)
      · exact ih (fun kv hk => h kv (List.mem_cons_of_mem _ hk)) kv hkv'

theorem process_line_values_ne_nil {st st' : St} {l : Str}
    (hok : process_line st l = .ok st') (h : ∀ kv ∈ st.2, kv.2 ≠ []) :
    ∀ kv ∈ st'.2, kv.2 ≠ [] := by
  simp only [process_line] at hok
  split at hok
  · exact (Except.ok.inj hok) ▸ h
  · split at hok
    · exact Except.noConfusion hok
    · split at hok
      · exact (Except.ok.inj hok) ▸ h
      · split at hok
        · exact Except.noConfusion hok
        · exact (Except.ok.inj hok) ▸ h
        · split at hok
          · cases Except.ok.inj hok
            exact addSpecial_values_ne_nil h
          · cases Except.ok.inj hok
            exact h

theorem build_args_from_values_ne_nil :
    ∀ (lines : List Str) (st : St) (args : List Str) (sp : List (Str × List Str)),
      (∀ kv ∈ st.2, kv.2 ≠ []) → build_args_from st lines = .ok (args, sp) →
      ∀ kv ∈ sp, kv.2 ≠ [] := by
  intro lines
  induction lines with
  | nil =>
    intro st args sp h hok
    simp only [build_args_from] at hok
    cases Except.ok.inj hok
    exact h
  | cons l ls ih =>
    intro st args sp h hok
    simp only [build_args_from] at hok
    cases hp : process_line st l with
    | error e => rw [hp] at hok; exact Except.noConfusion hok
    | ok st' => rw [hp] at hok; exact ih st' args sp (process_line_values_ne_nil hp h) hok

/-- C8: whenever `build_args` returns normally, every flag key of the
returned `specials` mapping carries a non-empty list of package tokens. -/
theorem flagged_groups_nonempty (lines : List Str) (args : List Str)
    (sp : List (Str × List Str)) (h : build_args lines = .ok (args, sp)) :
    ∀ kv ∈ sp, kv.2 ≠ [] :=
  build_args_from_values_ne_nil lines ([], []) args sp (by simp) h

/-- Witness for C8 at a concrete flagged line. -/
theorem flagged_groups_nonempty_witness :
    (("--platform=linux".data, ["\"gunicorn@latest\"".data]) :
      Str × List Str).2 ≠ [] :=
  flagged_groups_nonempty
    ["gunicorn = \x7bversion = \"^21.2.0\", platform = \"linux\"\x7d".data]
    [] [("--platform=linux".data, ["\"gunicorn@latest\"".data])] (by decide)
    ("--platform=linux".data, ["\"gunicorn@latest\"".data]) (by decide)

/-- Witness for C1 at the concrete line `[tool.isort]`. -/
theorem no_eq_line_raises_parse_error_witness :
    process_line ([], []) "[tool.isort]".data =
      .error (.parseError (pyStripWs "[tool.isort]".data)) :=
  (no_eq_line_raises_parse_error "[tool.isort]".data (by decide) (by decide)
    (by decide)).1 ([], [])

/-- Witness for C6 at the concrete line ` Python = "^3.11"`. -/
theorem python_line_skipped_witness :
    process_line ([], []) " Python = \"^3.11\"".data = .ok ([], []) :=
  python_line_skipped ([], []) " Python = \"^3.11\"".data "Python ".data
    " \"^3.11\"".data (by decide) (by decide) (by decide) (by decide)

/-- Witness for C10 at the concrete line `foo = ""`. -/
theorem empty_spec_raises_index_error_witness :
    build_args ["foo = \"\"".data] = .error .indexError :=
  (empty_spec_raises_index_error "foo = \"\"".data "foo ".data " \"\"".data
    (by decide) (by decide) (by decide) (by decide)).2

/-- Witness for C3 at the concrete version spec `>=1.0`. -/
theorem constraint_spec_skipped_witness :
    no_need_upgrade ">=1.0".data "foo = \">=1.0\"".data = .ok true :=
  constraint_spec_skipped ">=1.0".data "foo = \">=1.0\"".data (by decide)

/-- C9 counterexample: on the single wildcard line `bumpversion = "*"` both
revisions of `build_args` return normally, but `fast_tort_cli` skips the
line while `fast_tortoise_cli` emits an upgrade token for it, so the
results differ. -/
theorem build_args_revisions_differ :
    build_args ["bumpversion = \"*\"".data] = .ok ([], []) ∧
    FastTortoise.build_args ["bumpversion = \"*\"".data] =
      .ok (["\"bumpversion@latest\"".data], []) ∧
    (([], []) : St) ≠ (["\"bumpversion@latest\"".data], []) :=
  ⟨by decide, by decide, by decide⟩

theorem header_ne_nil {t : Str} (h : pyStartsWith "[".data t = true) :
    t ≠ [] := by
  intro he
  rw [he] at h
  simp [pyStartsWith, List.isPrefixOf] at h

theorem tokenLines_nil : tokenLines [] = [] := rfl

theorem tokenLines_cons (l : Str) (ls : List Str) :
    tokenLines (l :: ls) =
      if (pyStripWs l).isEmpty then tokenLines ls
      else pyStripWs l :: tokenLines ls := by
  by_cases h : (pyStripWs l).isEmpty <;>
    simp [tokenLines, List.filter_cons, h]

theorem parse_item_go_cons_header {l : Str}
    (hh : pyStartsWith "[".data (pyStripWs l) = true)
    (acc : List Str) (rest : List Str) :
    parse_item_go acc (l :: rest) =
      if acc.isEmpty then parse_item_go acc rest else acc := by
  simp [parse_item_go, hh]

theorem parse_item_go_cons_blank {l : Str}
    (hh : pyStartsWith "[".data (pyStripWs l) = false)
    (hemp : (pyStripWs l).isEmpty = true)
    (acc : List Str) (rest : List Str) :
    parse_item_go acc (l :: rest) = parse_item_go acc rest := by
  simp [parse_item_go, hh, hemp]

theorem parse_item_go_cons_entry {l : Str}
    (hh : pyStartsWith "[".data (pyStripWs l) = false)
    (hemp : (pyStripWs l).isEmpty = false)
    (acc : List Str) (rest : List Str) :
    parse_item_go acc (l :: rest) = parse_item_go (acc ++ [pyStripWs l]) rest := by
  simp [parse_item_go, hh, hemp]

theorem parse_item_go_acc (ls : List Str) :
    ∀ acc : List Str, acc ≠ [] →
      parse_item_go acc ls =
        acc ++ (tokenLines ls).takeWhile (fun l => !pyStartsWith "[".data l) := by
  induction ls with
  | nil => intro acc _; simp [parse_item_go, tokenLines_nil]
  | cons l rest ih =>
    intro acc hacc
    have haccE : acc.isEmpty = false := by simp [List.isEmpty_iff, hacc]
    by_cases hh : pyStartsWith "[".data (pyStripWs l) = true
    · have hne : (pyStripWs l).isEmpty = false := by
        simp [List.isEmpty_iff]
        exact header_ne_nil hh
      rw [parse_item_go_cons_header hh,
        if_neg (show ¬acc.isEmpty = true by simp [haccE]),
        tokenLines_cons l rest,
        if_neg (show ¬(pyStripWs l).isEmpty = true by simp [hne])]
      rw [List.takeWhile_cons_of_neg (by simp [hh]), List.append_nil]
    · by_cases hemp : (pyStripWs l).isEmpty = true
      · rw [parse_item_go_cons_blank (by simpa using hh) hemp,
          tokenLines_cons l rest, if_pos hemp, ih acc hacc]
      · rw [parse_item_go_cons_entry (by simpa using hh) (by simpa using hemp),
          tokenLines_cons l rest, if_neg hemp,
          ih (acc ++ [pyStripWs l]) (by simp),
          List.takeWhile_cons_of_pos (by simp [hh]), List.append_assoc]
        rfl

theorem parse_item_go_nil (ls : List Str) :
    parse_item_go [] ls =
      ((tokenLines ls).dropWhile (fun l => pyStartsWith "[".data l)).takeWhile
        (fun l => !pyStartsWith "[".data l) := by
  induction ls with
  | nil => simp [parse_item_go, tokenLines_nil]
  | cons l rest ih =>
    by_cases hh : pyStartsWith "[".data (pyStripWs l) = true
    · have hne : (pyStripWs l).isEmpty = false := by
        simp [List.isEmpty_iff]
        exact header_ne_nil hh
      rw [parse_item_go_cons_header hh,
        if_pos (show ([] : List Str).isEmpty = true from rfl), ih,
        tokenLines_cons l rest,
        if_neg (show ¬(pyStripWs l).isEmpty = true by simp [hne]),
        List.dropWhile_cons_of_pos (by simp [hh])]
    · by_cases hemp : (pyStripWs l).isEmpty = true
      · rw [parse_item_go_cons_blank (by simpa using hh) hemp, ih,
          tokenLines_cons l rest, if_pos hemp]
      · rw [parse_item_go_cons_entry (by simpa using hh) (by simpa using hemp),
          List.nil_append,
          parse_item_go_acc rest [pyStripWs l] (by simp),
          tokenLines_cons l rest, if_neg hemp,
          List.dropWhile_cons_of_neg (by simp [hh]),
          List.takeWhile_cons_of_pos (by simp [hh])]
        rfl

/-- C4 (amended): `parse_item` returns the stripped non-blank lines of the
body, skipping any section-header lines seen before the first entry line,
up to (excluding) the first section-header line that follows at least one
entry line — not simply the lines before the first header, as header lines
at the start of the body are skipped rather than terminating the scan. -/
theorem parse_item_sections (body : Str) :
    parse_item body = specAmendedLines body := by
  unfold parse_item specAmendedLines strippedLines
  exact parse_item_go_nil (pySplitlines body)

theorem agree_step {l : Str} (h : agree_line l = true) (st : St) :
    ∃ st', process_line st l = .ok st' ∧
      FastTortoise.process_line st l = .ok st' := by
  simp only [agree_line] at h
  by_cases hskip : ((pyStripWs l).isEmpty || pyStartsWith "#".data (pyStripWs l)) = true
  · exact ⟨st, by simp [process_line, hskip], by simp [FastTortoise.process_line, hskip]⟩
  · rw [if_neg hskip] at h
    have hparts : (pyStripWs l).isEmpty = false ∧
        pyStartsWith "#".data (pyStripWs l) = false := by
      constructor <;> simp_all
    obtain ⟨hmE, hns⟩ := hparts
    cases hsp : pySplitOnce "=".data (pyStripWs l) with
    | none => rw [hsp] at h; exact absurd h (by simp)
    | some pv =>
      obtain ⟨p, v⟩ := pv
      rw [hsp] at h
      by_cases hpyq : pyLower (pyStripWs p) = "python".data
      · exact ⟨st, by simp [process_line, hmE, hns, hsp, hpyq],
          by simp [FastTortoise.process_line, hmE, hns, hsp, hpyq]⟩
      · have hpb : plain_both v = true := by
          simp only [Bool.or_eq_true] at h
          rcases h with hpy | hpb
          · exact absurd (by simpa using hpy) hpyq
          · exact hpb
        simp only [plain_both, Bool.and_eq_true, Bool.not_eq_true',
          decide_eq_true_eq] at hpb
        obtain ⟨⟨⟨⟨⟨⟨⟨⟨⟨hok, hex⟩, hpf⟩, hsc⟩, hop⟩, hurl⟩, hstar⟩, hexz⟩, hpfz⟩, hscz⟩ := hpb
        have hnn : no_need_upgrade (pyStrip " \"".data v) l = .ok false := by
          have hirr : no_need_upgrade (pyStrip " \"".data v) l =
              no_need_upgrade (pyStrip " \"".data v) [] := rfl
          rw [hirr]
          cases hcase : no_need_upgrade (pyStrip " \"".data v) [] with
          | error e => rw [hcase] at hok; simp at hok
          | ok b =>
            cases b with
            | true => rw [hcase] at hok; simp at hok
            | false => rfl
        refine ⟨(st.1 ++ ["\"".data ++ pyStripWs p ++ "@latest\"".data], st.2), ?_, ?_⟩
        · simp [process_line, hmE, hns, hsp, hpyq, hnn, hex, hpf, hsc, hop]
        · simp [FastTortoise.process_line, hmE, hns, hsp, hpyq, hurl, hstar,
            hexz, hpfz, hscz]

theorem build_args_from_agree :
    ∀ (lines : List Str), (∀ l ∈ lines, agree_line l = true) →
      ∀ st, ∃ r, build_args_from st lines = .ok r ∧
        FastTortoise.build_args_from st lines = .ok r := by
  intro lines
  induction lines with
  | nil => intro _ st; exact ⟨st, rfl, rfl⟩
  | cons l ls ih =>
    intro h st
    obtain ⟨st', h1, h2⟩ := agree_step (h l (List.mem_cons_self l ls)) st
    obtain ⟨r, hr1, hr2⟩ := ih (fun x hx => h x (List.mem_cons_of_mem l hx)) st'
    refine ⟨r, ?_, ?_⟩
    · simp only [build_args_from, h1]
      exact hr1
    · simp only [FastTortoise.build_args_from, h2]
      exact hr2

/-- C9 (amended): the two revisions of `build_args` do not produce equal
results in general (see the wildcard counterexample); they do agree, with
identical plain tokens and identical flagged mappings, on every list of
lines each of which is blank, a comment, a `python` marker, or a plain
upgrade line that neither revision skips or flags. -/
theorem build_args_revisions_agree (lines : List Str)
    (h : ∀ l ∈ lines, agree_line l = true) :
    ∃ r, build_args lines = .ok r ∧ FastTortoise.build_args lines = .ok r :=
  build_args_from_agree lines h ([], [])

/-- Witness for C9 (amended) on a comment, a `python` marker and a plain
caret line. -/
theorem build_args_revisions_agree_witness :
    ∃ r, build_args
        ["# tools".data, "python = \"^3.11\"".data, "fastapi = \"^0.100.0\"".data] =
        .ok r ∧
      FastTortoise.build_args
        ["# tools".data, "python = \"^3.11\"".data, "fastapi = \"^0.100.0\"".data] =
        .ok r :=
  build_args_revisions_agree
    ["# tools".data, "python = \"^3.11\"".data, "fastapi = \"^0.100.0\"".data]
    (by decide)

theorem get_args_with_flag {title flag text : Str} {p d : List Str}
    {o : List (List Str)} {f : Str}
    (h : get_args_with title flag text = .ok (p, d, o, f)) : f = flag := by
  simp only [get_args_with] at h
  split at h
  · exact Except.noConfusion h
  · split at h
    · exact Except.noConfusion h
    · simp only [Except.ok.injEq, Prod.mk.injEq] at h
      exact h.2.2.2.symm

theorem get_args_no_dev (t : Str)
    (hnew : occursIn newDevTitle (lastPart (pySplit mainTitle t)) = false)
    (hold : occursIn oldDevTitle (lastPart (pySplit mainTitle t)) = false) :
    get_args t =
      (build_args (parse_item (lastPart (pySplit mainTitle t)))).map
        (fun r => (r.1, ([] : List Str),
          r.2.map (fun kv => kv.1 :: kv.2), "--dev".data)) := by
  unfold get_args
  rw [if_neg (by simp [hnew])]
  have hsp : pySplit oldDevTitle (lastPart (pySplit mainTitle t)) =
      [lastPart (pySplit mainTitle t)] :=
    pySplit_of_none (by simpa [occursIn] using hold)
  simp only [get_args_with, hsp]
  cases hb : build_args (parse_item (lastPart (pySplit mainTitle t))) with
  | error e => simp [Except.map]
  | ok pr =>
    obtain ⟨prod_packs, specials⟩ := pr
    simp [Except.map, build_args, build_args_from]

/-- C5: the dev-dependency section handling of `get_args`.  When the
new-style header `[tool.poetry.group.dev.dependencies]` occurs in the text
after the main-dependencies header, the returned dev flag is `--group dev`;
otherwise `get_args` falls back to the legacy header
`[tool.poetry.dev-dependencies]` with flag `--dev`; and when neither dev
header occurs there, the dev package list is empty and the flagged groups
are exactly the main-section ones. -/
theorem get_args_dev_header_choice (t : Str) :
    (occursIn newDevTitle (lastPart (pySplit mainTitle t)) = true →
      ∀ p d o f, get_args t = .ok (p, d, o, f) → f = "--group dev".data) ∧
    (occursIn newDevTitle (lastPart (pySplit mainTitle t)) = false →
      ∀ p d o f, get_args t = .ok (p, d, o, f) → f = "--dev".data) ∧
    (occursIn newDevTitle (lastPart (pySplit mainTitle t)) = false →
      occursIn oldDevTitle (lastPart (pySplit mainTitle t)) = false →
      get_args t =
        (build_args (parse_item (lastPart (pySplit mainTitle t)))).map
          (fun r => (r.1, ([] : List Str),
            r.2.map (fun kv => kv.1 :: kv.2), "--dev".data))) := by
  refine ⟨?_, ?_, get_args_no_dev t⟩
  · intro hnew p d o f h
    rw [get_args, if_pos hnew] at h
    exact get_args_with_flag h
  · intro hnew p d o f h
    rw [get_args, if_neg (by simp [hnew])] at h
    exact get_args_with_flag h

/-- Witness for C5: a manifest with no dev section falls back to `--dev`
and returns empty dev lists, and one with a new-style dev section yields
the `--group dev` flag. -/
theorem get_args_dev_header_choice_witness :
    get_args "[tool.poetry.dependencies]\nfoo = \"^1.0\"\n".data =
      (build_args (parse_item (lastPart (pySplit mainTitle
          "[tool.poetry.dependencies]\nfoo = \"^1.0\"\n".data)))).map
        (fun r => (r.1, ([] : List Str),
          r.2.map (fun kv => kv.1 :: kv.2), "--dev".data)) ∧
    ("--group dev".data : Str) = "--group dev".data :=
  ⟨(get_args_dev_header_choice
      "[tool.poetry.dependencies]\nfoo = \"^1.0\"\n".data).2.2 (by decide) (by decide),
   (get_args_dev_header_choice
      ("[tool.poetry.dependencies]\nfoo = \"^1.0\"\n[tool.poetry.group.dev.dependencies]\nbar = \"^2.0\"\n".data)).1
      (by decide) ["\"foo@latest\"".data] ["\"bar@latest\"".data] []
      "--group dev".data (by decide)⟩

end FastTort

